import Mathlib

/-!
Shallow embedding of the WLED usermod `BettlichtSensors`
(src/usermods/bettlicht-sensors/usermod_bettlicht-sensors.h).

The usermod polls PIR motion sensors and LDR light sensors and toggles the
host's global brightness (`bri` / `briLast`).  We embed:

* the module's private state (`ModState`) and the host brightness globals it
  reads and writes (`HostState`);
* `updateSensors` (the poll), `loop` (the host hook with its rate-limit
  check), `readFromJsonState`, `addToJsonInfo`;
* the resistance estimation (`getResistanceFromRawVoltage`,
  `getAvgLdrResistance`) over exact rationals, with `none` standing for the
  non-finite IEEE float values (inf from division by zero, NaN from 0/0);
* the config round trip (`addToConfig` / `readFromConfig`) including the
  comma-separated decimal pin serialization and its `getline`/`strtoul`
  re-parsing.

Machine integers are `Nat` with explicit `% 2^w` where wraparound matters:
`millis()` arithmetic on 32-bit `unsigned long` and the
`unsigned long → unsigned short` pin conversion.
-/

namespace Bettlicht

/-- 32-bit unsigned subtraction `a - b` as computed on `unsigned long`
(wraparound); this is how the source compares `millis()` to stored
timestamps. -/
def usub (a b : Nat) : Nat :=
  (a % 2 ^ 32 + (2 ^ 32 - b % 2 ^ 32)) % 2 ^ 32

/-- A brightness command emitted by the poll: the source signals one by
mutating `bri` and calling `colorUpdated(CALL_MODE_NO_NOTIFY)`.
`on r` is the automatic-on branch restoring remembered brightness `r`;
`off b` is the automatic-off branch remembering brightness `b` and setting
brightness to 0. -/
inductive Cmd where
  | on (restored : Nat)
  | off (remembered : Nat)
deriving DecidableEq, Repr

/-- The configuration fields of the usermod (class members set in `setup`
or by `readFromConfig`). Pin numbers are `unsigned short`, the threshold
`unsigned int`, `stayOnTime` is `unsigned long` milliseconds, the resistor
and voltage are floats (embedded as exact rationals). -/
structure Config where
  ldrPins : List Nat
  pirPins : List Nat
  ldrThreshold : Nat
  stayOnTime : Nat
  ldrKnownResistor : ℚ
  ldrVoltage : ℚ
deriving DecidableEq, Repr

/-- Private mutable state of the usermod other than configuration:
`lastTime` (the rate-limit timestamp), the manual-override flag, the last
motion timestamp, and the last sensor readings. -/
structure ModState where
  lastTime : Nat
  lastOnManual : Bool
  lastPirTriggeredTime : Nat
  pirValues : List Bool
  ldrValues : List Nat
deriving DecidableEq, Repr

/-- The host globals the module reads and writes: current brightness `bri`
and remembered brightness `briLast`. -/
structure HostState where
  bri : Nat
  briLast : Nat
deriving DecidableEq, Repr

/-- Result of one poll or loop invocation: new module state, new host
brightness state, and the brightness commands emitted (in order). -/
structure PollResult where
  ms : ModState
  hs : HostState
  cmds : List Cmd
deriving DecidableEq, Repr

/-- `isPirTriggered`: scans `pirValues` and returns true at the first true
reading (the source's for-loop with break). -/
def isPirTriggered : List Bool → Bool
  | [] => false
  | v :: vs => if v then true else isPirTriggered vs

/-- `isLdrTriggered`: scans `ldrValues` and returns true at the first
reading strictly below `ldrThreshold` (the source's for-loop with break). -/
def isLdrTriggered (ldrThreshold : Nat) : List Nat → Bool
  | [] => false
  | v :: vs => if v < ldrThreshold then true else isLdrTriggered ldrThreshold vs

/-- `updateSensors`: one poll. Reads every configured PIR pin
(`digitalRead(pin) == 1`) and LDR pin (`analogRead`), notes the motion time,
then runs the automatic-on branch followed by the automatic-off branch,
sequenced exactly as in the source (`isOn` is captured once before both
branches; the off branch sees the manual flag as possibly cleared by the on
branch). `now` stands for `millis()`. -/
def updateSensors (cfg : Config) (digitalRead analogRead : Nat → Nat) (now : Nat)
    (ms : ModState) (hs : HostState) : PollResult :=
  let pirValues := cfg.pirPins.map (fun p => digitalRead p == 1)
  let ldrValues := cfg.ldrPins.map analogRead
  let lastPirTriggeredTime :=
    if isPirTriggered pirValues then now else ms.lastPirTriggeredTime
  let isOn := hs.bri != 0
  let fire1 := !isOn && isPirTriggered pirValues && isLdrTriggered cfg.ldrThreshold ldrValues
  let lastOnManual := if fire1 then false else ms.lastOnManual
  let bri1 := if fire1 then hs.briLast else hs.bri
  let fire2 := isOn && !lastOnManual &&
    decide (usub now lastPirTriggeredTime > cfg.stayOnTime)
  let briLast2 := if fire2 then bri1 else hs.briLast
  let bri2 := if fire2 then 0 else bri1
  { ms := { lastTime := ms.lastTime
            lastOnManual := lastOnManual
            lastPirTriggeredTime := lastPirTriggeredTime
            pirValues := pirValues
            ldrValues := ldrValues }
    hs := { bri := bri2, briLast := briLast2 }
    cmds := (if fire1 then [Cmd.on hs.briLast] else []) ++
            (if fire2 then [Cmd.off bri1] else []) }

/-- `loop`: the host hook. Polls when `millis() - lastTime > 300`.
Faithful to the source: `lastTime` is never written (the assignment
`this->lastTime = millis()` at line 190 is commented out), so the returned
state keeps the old `lastTime`. -/
def loop (cfg : Config) (digitalRead analogRead : Nat → Nat) (now : Nat)
    (ms : ModState) (hs : HostState) : PollResult :=
  if usub now ms.lastTime > 300 then
    updateSensors cfg digitalRead analogRead now ms hs
  else
    { ms := ms, hs := hs, cmds := [] }

/-- `readFromJsonState`: reads the `on` field of the incoming state object
(`none` when absent; `as<boolean>()` yields `false` for an absent field) and
sets the manual-override flag when it is true. -/
def readFromJsonState (onField : Option Bool) (ms : ModState) : ModState :=
  if onField.getD false = true then { ms with lastOnManual := true } else ms

/-- Truncation toward zero, the C++ float-to-integer conversion applied to
`ldrKnownResistor` when it is passed to the `long knownR` parameter. -/
def truncQ (q : ℚ) : ℤ :=
  if q < 0 then ⌈q⌉ else ⌊q⌋

/-- `getResistanceFromRawVoltage`: `knownR * (pow(2, precision) / (float)input - 1)`.
Finite float arithmetic is embedded exactly over ℚ; for `input = 0` the IEEE
float division yields infinity (a defined value, not a trap), embedded as
`none`. -/
def getResistanceFromRawVoltage (knownR : ℤ) (precision : Nat) (input : Nat) : Option ℚ :=
  if input = 0 then none
  else some ((knownR : ℚ) * ((2 : ℚ) ^ precision / (input : Nat) - 1))

/-- The accumulation `R2sums += getResistanceFromRawVoltage(knownR, 12, v)`
over the LDR readings; `none` (a non-finite float) is absorbing, as infinity
is under IEEE addition. -/
def sumLdrResistances (knownR : ℤ) : List Nat → Option ℚ
  | [] => some 0
  | v :: vs =>
    match getResistanceFromRawVoltage knownR 12 v, sumLdrResistances knownR vs with
    | some x, some s => some (x + s)
    | _, _ => none

/-- `getAvgLdrResistance`: `floor(R2sums / ldrValues.size())` as a `long`.
With no readings the division is `0.0f / 0`, i.e. NaN, and converting NaN
(or infinity) to `long` has no defined value: both are embedded as `none`. -/
def getAvgLdrResistance (ldrKnownResistor : ℚ) (ldrValues : List Nat) : Option ℤ :=
  match sumLdrResistances (truncQ ldrKnownResistor) ldrValues with
  | none => none
  | some s =>
    if ldrValues.length = 0 then none
    else some ⌊s / (ldrValues.length : ℚ)⌋

/-- The `u` entries produced by `addToJsonInfo`: the average LDR resistance
and the count of currently triggered PIR sensors. -/
structure InfoFragment where
  avgLdrResistance : Option ℤ
  numPirsTriggered : Nat
deriving DecidableEq, Repr

/-- `addToJsonInfo`: counts the true PIR readings into a `uint8_t`
(hence `% 256`) and unconditionally reports `getAvgLdrResistance()`. -/
def addToJsonInfo (ldrKnownResistor : ℚ) (pirValues : List Bool) (ldrValues : List Nat) :
    InfoFragment :=
  { avgLdrResistance := getAvgLdrResistance ldrKnownResistor ldrValues
    numPirsTriggered := (pirValues.countP (fun b => b)) % 256 }

/-- One decimal digit as a character, as `std::stringstream` prints it. -/
def digitToChar : Nat → Char
  | 0 => '0' | 1 => '1' | 2 => '2' | 3 => '3' | 4 => '4'
  | 5 => '5' | 6 => '6' | 7 => '7' | 8 => '8' | 9 => '9'
  | _ => '*'

/-- Most-significant-first decimal digits of `n` (empty for `n = 0`);
`fuel` bounds the recursion and any `fuel ≥ n` yields the digits. -/
def toDecAux : Nat → Nat → List Char
  | 0, _ => []
  | fuel + 1, n =>
    if n = 0 then [] else toDecAux fuel (n / 10) ++ [digitToChar (n % 10)]

/-- The decimal rendering of `n` produced by `ss << n`. -/
def natToDecChars (n : Nat) : List Char :=
  if n = 0 then ['0'] else toDecAux n n

/-- Numeric value of a digit character. -/
def charVal (c : Char) : Nat :=
  c.toNat - 48

/-- `strtoul(s, nullptr, 10)` on a token with no leading whitespace or
sign: reads the leading run of decimal digits left to right. -/
def strtoul10 (s : List Char) : Nat :=
  (s.takeWhile (fun c => c.isDigit)).foldl (fun a c => a * 10 + charVal c) 0

/-- Core of `getline(stream, s, ',')` splitting: cut at each comma,
accumulating the current token reversed in `acc`. -/
def splitAux : List Char → List Char → List (List Char)
  | [], acc => [acc.reverse]
  | c :: cs, acc =>
    if c = ',' then acc.reverse :: splitAux cs [] else splitAux cs (c :: acc)

/-- The token list produced by repeated `getline(stream, s, ',')`:
`getline` fails only when it extracts zero characters at end of input, so a
final empty token (in particular the sole token of an empty string) is not
produced. -/
def getlineSplit (s : List Char) : List (List Char) :=
  let ts := splitAux s []
  if ts.getLast? = some [] then ts.dropLast else ts

/-- The comma-joining loop of `addToConfig` (a separator after every pin
except the last). -/
def joinComma : List (List Char) → List Char
  | [] => []
  | [t] => t
  | t :: ts => t ++ ',' :: joinComma ts

/-- The `bettlicht-sensors` config object: the two pin lists as
comma-separated strings and the four scalar fields. Scalars are `Option`
to model presence in the JSON document (`readFromConfig` substitutes a
default via `|` when a key is absent). -/
structure ConfigFragment where
  pirPins : List Char
  ldrPins : List Char
  ldrThreshold : Option Nat
  ldrVoltage : Option ℚ
  ldrKnownResistor : Option ℚ
  stayOnTime : Option Nat
deriving DecidableEq, Repr

/-- `addToConfig`: serializes both pin lists as comma-separated decimal
strings and stores the scalar fields. -/
def addToConfig (cfg : Config) : ConfigFragment :=
  { pirPins := joinComma (cfg.pirPins.map natToDecChars)
    ldrPins := joinComma (cfg.ldrPins.map natToDecChars)
    ldrThreshold := some cfg.ldrThreshold
    ldrVoltage := some cfg.ldrVoltage
    ldrKnownResistor := some cfg.ldrKnownResistor
    stayOnTime := some cfg.stayOnTime }

/-- `readFromConfig`: reads the scalars with defaults `500`, `5.0`, `10000`,
`500`, re-parses each pin string with `getline`/`strtoul` (each parsed value
is stored into an `unsigned short`, hence `% 2^16`), and replaces a pin list
only when parsing produced at least one pin, else keeps the current
(default) list `cur`. -/
def readFromConfig (frag : ConfigFragment) (cur : Config) : Config :=
  let pirPinsNew := (getlineSplit frag.pirPins).map (fun t => strtoul10 t % 2 ^ 16)
  let ldrPinsNew := (getlineSplit frag.ldrPins).map (fun t => strtoul10 t % 2 ^ 16)
  { ldrPins := if ldrPinsNew.length > 0 then ldrPinsNew else cur.ldrPins
    pirPins := if pirPinsNew.length > 0 then pirPinsNew else cur.pirPins
    ldrThreshold := frag.ldrThreshold.getD 500
    stayOnTime := frag.stayOnTime.getD 500
    ldrKnownResistor := frag.ldrKnownResistor.getD 10000
    ldrVoltage := frag.ldrVoltage.getD 5 }

/-! ## Helper lemmas -/

/-- A conditional singleton list has at most one element. -/
lemma length_ite_single_le_one (c : Prop) [Decidable c] (x : Cmd) :
    (if c then [x] else []).length ≤ 1 := by
  split <;> simp

/-- Membership in a conditional singleton command list. -/
lemma mem_ite_single {c : Prop} [Decidable c] {x y : Cmd} :
    (x ∈ (if c then [y] else [])) ↔ c ∧ x = y := by
  split <;> simp_all

/-- Truncation toward zero is the identity on integer rationals. -/
lemma truncQ_intCast (z : ℤ) : truncQ (z : ℚ) = z := by
  unfold truncQ
  split <;> simp

/-- Every digit printed by the decimal rendering round-trips through its
character code. -/
lemma charVal_digitToChar : ∀ d : Nat, d < 10 → charVal (digitToChar d) = d := by decide

/-- Decimal digit characters satisfy `isDigit`. -/
lemma isDigit_digitToChar : ∀ d : Nat, d < 10 → (digitToChar d).isDigit = true := by decide

/-- Decimal digit characters are not the separator. -/
lemma digitToChar_ne_comma : ∀ d : Nat, d < 10 → digitToChar d ≠ ',' := by decide

/-- Every character produced by `toDecAux` is a digit and not a comma. -/
lemma toDecAux_chars : ∀ fuel n : Nat, ∀ c ∈ toDecAux fuel n, c.isDigit = true ∧ c ≠ ',' := by
  intro fuel
  induction fuel with
  | zero => intro n c hc; simp [toDecAux] at hc
  | succ fuel ih =>
    intro n c hc
    by_cases h : n = 0
    · simp [toDecAux, h] at hc
    · simp only [toDecAux, h, if_false, List.mem_append, List.mem_singleton] at hc
      rcases hc with hc | hc
      · exact ih _ _ hc
      · subst hc
        exact ⟨isDigit_digitToChar _ (Nat.mod_lt _ (by norm_num)),
               digitToChar_ne_comma _ (Nat.mod_lt _ (by norm_num))⟩

/-- Left-to-right digit accumulation over the decimal rendering recovers the
number (with an arbitrary accumulator seed). -/
lemma toDecAux_foldl : ∀ fuel n a : Nat, n ≤ fuel →
    (toDecAux fuel n).foldl (fun a c => a * 10 + charVal c) a =
      a * 10 ^ (toDecAux fuel n).length + n := by
  intro fuel
  induction fuel with
  | zero =>
    intro n a h
    interval_cases n
    simp [toDecAux]
  | succ fuel ih =>
    intro n a h
    by_cases h0 : n = 0
    · simp [toDecAux, h0]
    · have hdiv : n / 10 ≤ fuel := by omega
      simp only [toDecAux, h0, if_false, List.foldl_append, List.length_append,
        List.foldl_cons, List.foldl_nil, List.length_cons, List.length_nil]
      rw [ih _ _ hdiv]
      rw [charVal_digitToChar _ (Nat.mod_lt _ (by norm_num))]
      have := Nat.div_add_mod n 10
      ring_nf
      omega

/-- `strtoul` re-parses the decimal rendering of any number exactly. -/
lemma strtoul10_natToDecChars (n : Nat) : strtoul10 (natToDecChars n) = n := by
  by_cases h : n = 0
  · subst h; decide
  · unfold strtoul10 natToDecChars
    rw [if_neg h]
    rw [List.takeWhile_eq_self_iff.mpr (fun c hc => (toDecAux_chars n n c hc).1)]
    have := toDecAux_foldl n n 0 le_rfl
    simpa using this

/-- The decimal rendering is never the empty string. -/
lemma natToDecChars_ne_nil (n : Nat) : natToDecChars n ≠ [] := by
  unfold natToDecChars
  by_cases h : n = 0
  · simp [h]
  · rw [if_neg h]
    rcases n with _ | m
    · exact absurd rfl h
    · simp [toDecAux, h]

/-- The decimal rendering contains no separator character. -/
lemma natToDecChars_no_comma (n : Nat) : ∀ c ∈ natToDecChars n, c ≠ ',' := by
  intro c hc
  unfold natToDecChars at hc
  by_cases h : n = 0
  · rw [if_pos h] at hc
    simp at hc
    subst hc
    decide
  · rw [if_neg h] at hc
    exact (toDecAux_chars n n c hc).2

/-- Unfolding equation for `splitAux` on a cons cell. -/
lemma splitAux_cons (c : Char) (cs acc : List Char) :
    splitAux (c :: cs) acc =
      if c = ',' then acc.reverse :: splitAux cs [] else splitAux cs (c :: acc) := rfl

/-- Splitting skips over a comma-free prefix, accumulating it. -/
lemma splitAux_append_no_comma :
    ∀ (t rest acc : List Char), (∀ c ∈ t, c ≠ ',') →
      splitAux (t ++ rest) acc = splitAux rest (t.reverse ++ acc) := by
  intro t
  induction t with
  | nil => intro rest acc _; simp
  | cons c cs ih =>
    intro rest acc h
    have hc : c ≠ ',' := h c (List.mem_cons_self c cs)
    rw [List.cons_append, splitAux_cons, if_neg hc,
      ih rest (c :: acc) (fun x hx => h x (List.mem_cons_of_mem c hx)),
      List.reverse_cons, List.append_assoc, List.singleton_append]

/-- Splitting a comma-join of comma-free tokens recovers the tokens. -/
lemma split_join : ∀ toks : List (List Char), toks ≠ [] →
    (∀ t ∈ toks, ∀ c ∈ t, c ≠ ',') →
    splitAux (joinComma toks) [] = toks := by
  intro toks
  induction toks with
  | nil => intro h; exact absurd rfl h
  | cons t ts ih =>
    intro _ h
    rcases ts with _ | ⟨t', ts'⟩
    · show splitAux (joinComma [t]) [] = [t]
      have : joinComma [t] = t ++ [] := by simp [joinComma]
      rw [this, splitAux_append_no_comma t [] [] (h t (List.mem_cons_self t _))]
      simp [splitAux]
    · show splitAux (t ++ ',' :: joinComma (t' :: ts')) [] = t :: t' :: ts'
      rw [splitAux_append_no_comma t _ [] (h t (List.mem_cons_self t _)),
        List.append_nil, splitAux_cons, if_pos rfl, List.reverse_reverse,
        ih (by simp) (fun x hx => h x (List.mem_cons_of_mem t hx))]

/-- A list of nonempty tokens does not end in the empty token. -/
lemma getLast?_ne_nil_of_all {toks : List (List Char)} (h : ∀ t ∈ toks, t ≠ []) :
    toks.getLast? ≠ some [] := by
  intro hc
  have hmem : [] ∈ toks.getLast? := by rw [hc]; rfl
  obtain ⟨hne, hx⟩ := List.mem_getLast?_eq_getLast hmem
  exact h _ (hx ▸ List.getLast_mem hne) rfl

/-- `getline` splitting of a comma-join of nonempty comma-free tokens
recovers the tokens. -/
lemma getlineSplit_join (toks : List (List Char)) (hne : toks ≠ [])
    (hnil : ∀ t ∈ toks, t ≠ []) (hcomma : ∀ t ∈ toks, ∀ c ∈ t, c ≠ ',') :
    getlineSplit (joinComma toks) = toks := by
  unfold getlineSplit
  rw [split_join toks hne hcomma]
  rw [if_neg (getLast?_ne_nil_of_all hnil)]

/-- Serializing a pin list to a comma-separated decimal string and parsing
it back with `getline`/`strtoul` into `unsigned short` slots reproduces the
list, for pins in the `unsigned short` range. -/
lemma parsePins_roundtrip (pins : List Nat) (h : ∀ p ∈ pins, p < 2 ^ 16) :
    (getlineSplit (joinComma (pins.map natToDecChars))).map (fun t => strtoul10 t % 2 ^ 16)
      = pins := by
  rcases pins with _ | ⟨p, ps⟩
  · decide
  · rw [getlineSplit_join _ (by simp)
      (fun t ht => by
        rw [List.mem_map] at ht
        obtain ⟨n, _, rfl⟩ := ht
        exact natToDecChars_ne_nil n)
      (fun t ht => by
        rw [List.mem_map] at ht
        obtain ⟨n, _, rfl⟩ := ht
        exact natToDecChars_no_comma n)]
    rw [List.map_map]
    rw [List.map_congr_left (fun n hn => by
      show strtoul10 (natToDecChars n) % 2 ^ 16 = n
      rw [strtoul10_natToDecChars, Nat.mod_eq_of_lt (h n hn)])]
    exact List.map_id _

/-! ## Claim theorems -/

/-- Claim C1 (code_bug evidence). The claim says a second host-loop
invocation 300 ms or less after the most recent poll performs no sensor
read and no state change, because the stored last-poll timestamp is
updated on every poll. The code never updates `lastTime` (the assignment
at line 190 is commented out), so the rate limit never engages after
`millis()` passes 300: starting from the boot state, the loop call at
`millis() = 301` polls (emitting the automatic-on command and leaving
`lastTime` at 0), and the loop call at `millis() = 400` — only 99 ms
later — polls again, re-reading the sensors and changing state
(`lastPirTriggeredTime` moves from 301 to 400). -/
theorem loop_rate_limit_never_engages :
    (loop ⟨[32], [13], 500, 60000, 100000, 5⟩ (fun _ => 1) (fun _ => 400) 301
        ⟨0, false, 0, [], []⟩ ⟨0, 100⟩).cmds = [Cmd.on 100] ∧
    (loop ⟨[32], [13], 500, 60000, 100000, 5⟩ (fun _ => 1) (fun _ => 400) 301
        ⟨0, false, 0, [], []⟩ ⟨0, 100⟩).ms.lastTime = 0 ∧
    usub 400 301 ≤ 300 ∧
    (loop ⟨[32], [13], 500, 60000, 100000, 5⟩ (fun _ => 1) (fun _ => 400) 400
        (loop ⟨[32], [13], 500, 60000, 100000, 5⟩ (fun _ => 1) (fun _ => 400) 301
          ⟨0, false, 0, [], []⟩ ⟨0, 100⟩).ms
        (loop ⟨[32], [13], 500, 60000, 100000, 5⟩ (fun _ => 1) (fun _ => 400) 301
          ⟨0, false, 0, [], []⟩ ⟨0, 100⟩).hs).ms.lastPirTriggeredTime = 400 ∧
    (loop ⟨[32], [13], 500, 60000, 100000, 5⟩ (fun _ => 1) (fun _ => 400) 301
        ⟨0, false, 0, [], []⟩ ⟨0, 100⟩).ms.lastPirTriggeredTime = 301 :=
  ⟨by decide, by decide, by decide, by decide, by decide⟩

/-- Claim C2. Every call to `updateSensors` emits at most one brightness
command: the automatic-on branch requires `bri = 0` at entry and the
automatic-off branch requires `bri ≠ 0` at entry (`isOn` is captured once
before both branches), so they never both fire. -/
theorem updateSensors_at_most_one_command (cfg : Config) (dr ar : Nat → Nat) (now : Nat)
    (ms : ModState) (hs : HostState) :
    (updateSensors cfg dr ar now ms hs).cmds.length ≤ 1 := by
  unfold updateSensors
  by_cases h : hs.bri = 0 <;> simp [h] <;> exact length_ite_single_le_one _ _

/-- Claim C3. Whenever the manual-override flag is true at the start of a
poll, that poll emits no automatic-off command, regardless of elapsed
time: the off branch requires the flag to be false, and the only write to
the flag before it (the on branch) can only fire when `bri = 0`, in which
case the off branch is excluded by `isOn` anyway. -/
theorem updateSensors_manual_no_off (cfg : Config) (dr ar : Nat → Nat) (now : Nat)
    (ms : ModState) (hs : HostState) (h : ms.lastOnManual = true) :
    ∀ b, Cmd.off b ∉ (updateSensors cfg dr ar now ms hs).cmds := by
  intro b
  unfold updateSensors
  by_cases h0 : hs.bri = 0 <;> simp [h0, h]

/-- Witness for claim C3 at a concrete poll: flag set, lights on, no
motion for longer than `stayOnTime`, yet no off command. -/
theorem updateSensors_manual_no_off_witness :
    Cmd.off 100 ∉ (updateSensors ⟨[32], [13], 500, 60000, 100000, 5⟩ (fun _ => 0)
      (fun _ => 4000) 100000 ⟨0, true, 0, [], []⟩ ⟨100, 50⟩).cmds :=
  updateSensors_manual_no_off _ _ _ _ _ _ rfl 100

/-- Claim C4. With both pin lists empty no poll ever emits an automatic-on
command (so no sequence of polls does: each poll is a pure function of its
state), but the automatic-off command is still emitted once the lights are
on, the manual flag is false, and more than `stayOnTime` has elapsed since
the last recorded motion (time 0 if motion was never recorded). -/
theorem updateSensors_no_pins_never_on (cfg : Config) (dr ar : Nat → Nat) (now : Nat)
    (ms : ModState) (hs : HostState)
    (hp : cfg.pirPins = []) (hl : cfg.ldrPins = []) :
    (∀ b, Cmd.on b ∉ (updateSensors cfg dr ar now ms hs).cmds) ∧
    (hs.bri ≠ 0 → ms.lastOnManual = false →
      usub now ms.lastPirTriggeredTime > cfg.stayOnTime →
      (updateSensors cfg dr ar now ms hs).cmds = [Cmd.off hs.bri]) := by
  constructor
  · intro b
    simp [updateSensors, hp, hl, isPirTriggered, isLdrTriggered, mem_ite_single]
  · intro h1 h2 h3
    simp [updateSensors, hp, hl, isPirTriggered, isLdrTriggered, h1, h2, h3]

/-- Witness for claim C4: a sensorless configuration with the lights on
automatically, 70 s after boot with `stayOnTime = 60000`, never emits on
and emits exactly the off command. -/
theorem updateSensors_no_pins_never_on_witness :
    (∀ b, Cmd.on b ∉ (updateSensors ⟨[], [], 500, 60000, 100000, 5⟩ (fun _ => 1)
      (fun _ => 0) 70000 ⟨0, false, 0, [], []⟩ ⟨100, 50⟩).cmds) ∧
    (updateSensors ⟨[], [], 500, 60000, 100000, 5⟩ (fun _ => 1) (fun _ => 0) 70000
      ⟨0, false, 0, [], []⟩ ⟨100, 50⟩).cmds = [Cmd.off 100] :=
  ⟨(updateSensors_no_pins_never_on _ _ _ _ _ _ rfl rfl).1,
   (updateSensors_no_pins_never_on _ _ _ _ _ _ rfl rfl).2 (by decide) rfl (by decide)⟩

/-- Claim C5. `isPirTriggered` computes the disjunction of the PIR
readings and `isLdrTriggered` is true exactly when some LDR reading is
strictly below the threshold (both false on the empty sequence), with the
spec's concrete examples. -/
theorem sensor_predicates_spec (pv : List Bool) (lv : List Nat) (t : Nat) :
    isPirTriggered pv = pv.any (fun b => b) ∧
    isLdrTriggered t lv = lv.any (fun v => decide (v < t)) ∧
    isPirTriggered [false, true] = true ∧
    isLdrTriggered 500 [600, 400] = true ∧
    isLdrTriggered 500 [600, 700] = false ∧
    isPirTriggered [] = false ∧
    isLdrTriggered t [] = false := by
  refine ⟨?_, ?_, by decide, by decide, by decide, rfl, rfl⟩
  · induction pv with
    | nil => rfl
    | cons v vs ih => cases v <;> simp [isPirTriggered, ih]
  · induction lv with
    | nil => rfl
    | cons v vs ih => by_cases h : v < t <;> simp [isLdrTriggered, h, ih]

/-- Claim C6. Importing the fragment produced by exporting a configuration
reproduces the pin lists exactly when they are non-empty (pins being
`unsigned short` values), reproduces the four scalar fields exactly in all
cases, and keeps the current (default) pin lists when the exported lists
were empty. -/
theorem config_roundtrip (cfg cur : Config)
    (hpb : ∀ p ∈ cfg.pirPins, p < 2 ^ 16) (hlb : ∀ p ∈ cfg.ldrPins, p < 2 ^ 16) :
    (cfg.pirPins ≠ [] → cfg.ldrPins ≠ [] → readFromConfig (addToConfig cfg) cur = cfg) ∧
    ((readFromConfig (addToConfig cfg) cur).ldrThreshold = cfg.ldrThreshold ∧
     (readFromConfig (addToConfig cfg) cur).stayOnTime = cfg.stayOnTime ∧
     (readFromConfig (addToConfig cfg) cur).ldrKnownResistor = cfg.ldrKnownResistor ∧
     (readFromConfig (addToConfig cfg) cur).ldrVoltage = cfg.ldrVoltage) ∧
    (cfg.pirPins = [] → (readFromConfig (addToConfig cfg) cur).pirPins = cur.pirPins) ∧
    (cfg.ldrPins = [] → (readFromConfig (addToConfig cfg) cur).ldrPins = cur.ldrPins) := by
  obtain ⟨lp, pp, th, st, kr, v⟩ := cfg
  have hp := parsePins_roundtrip pp hpb
  have hl := parsePins_roundtrip lp hlb
  refine ⟨?_, ?_, ?_, ?_⟩
  · intro h1 h2
    simp_all [readFromConfig, addToConfig, List.length_pos]
  · simp [readFromConfig, addToConfig]
  · intro h1
    subst h1
    simp_all [readFromConfig, addToConfig]
  · intro h2
    subst h2
    simp_all [readFromConfig, addToConfig]

/-- Witness for claim C6: the round trip at the boot-time configuration,
and the kept current lists for an empty-pin configuration. -/
theorem config_roundtrip_witness :
    readFromConfig (addToConfig ⟨[32], [13], 500, 60000, 100000, 5⟩) ⟨[], [], 0, 0, 0, 0⟩ =
      ⟨[32], [13], 500, 60000, 100000, 5⟩ ∧
    (readFromConfig (addToConfig (⟨[], [], 500, 60000, 100000, 5⟩ : Config))
        ⟨[7], [9], 1, 2, 3, 4⟩).pirPins = [9] ∧
    (readFromConfig (addToConfig (⟨[], [], 500, 60000, 100000, 5⟩ : Config))
        ⟨[7], [9], 1, 2, 3, 4⟩).ldrPins = [7] :=
  ⟨(config_roundtrip _ _ (by decide) (by decide)).1 (by decide) (by decide),
   (config_roundtrip _ _ (by decide) (by decide)).2.2.1 rfl,
   (config_roundtrip _ _ (by decide) (by decide)).2.2.2 rfl⟩

/-- Claim C7 counterexample. On the single reading 600 with known resistor
100000 the code returns `floor` of the divider formula, 582666 — not the
claimed exact value `R * (4096/raw - 1) = 1748000/3`, which is not an
integer: the function returns a `long`, truncated by the `floor` at line
136. -/
theorem getAvgLdrResistance_not_exact_formula :
    getAvgLdrResistance 100000 [600] = some 582666 ∧
    ((582666 : ℚ) ≠ (100000 : ℚ) * ((4096 : ℚ) / 600 - 1)) := by
  constructor
  · norm_num [getAvgLdrResistance, sumLdrResistances, getResistanceFromRawVoltage, truncQ]
  · norm_num

/-- Claim C7 as amended. For a single reading `raw ≠ 0` with integer known
resistor `R`, `getAvgLdrResistance` returns the floor of
`R * (2^12/raw - 1)`; for `raw = 4096` it returns 0 exactly; and for
`raw = 0` the IEEE division yields the non-finite sentinel (embedded
`none`) rather than a runtime fault in the divider formula. -/
theorem getAvgLdrResistance_floor_formula (R : ℤ) (raw : Nat) :
    (raw ≠ 0 →
      getAvgLdrResistance (R : ℚ) [raw] = some ⌊(R : ℚ) * ((2 : ℚ) ^ 12 / (raw : ℚ) - 1)⌋) ∧
    getAvgLdrResistance (R : ℚ) [4096] = some 0 ∧
    getAvgLdrResistance (R : ℚ) [0] = none := by
  refine ⟨?_, ?_, ?_⟩
  · intro h
    simp [getAvgLdrResistance, sumLdrResistances, getResistanceFromRawVoltage, truncQ_intCast, h]
  · norm_num [getAvgLdrResistance, sumLdrResistances, getResistanceFromRawVoltage, truncQ_intCast]
  · simp [getAvgLdrResistance, sumLdrResistances, getResistanceFromRawVoltage]

/-- Witness for the amended claim C7 at `R = 100000`, readings 600, 4096
and 0. -/
theorem getAvgLdrResistance_floor_formula_witness :
    (600 : Nat) ≠ 0 ∧
    getAvgLdrResistance ((100000 : ℤ) : ℚ) [600] =
      some ⌊((100000 : ℤ) : ℚ) * ((2 : ℚ) ^ 12 / ((600 : Nat) : ℚ) - 1)⌋ ∧
    getAvgLdrResistance ((100000 : ℤ) : ℚ) [4096] = some 0 ∧
    getAvgLdrResistance ((100000 : ℤ) : ℚ) [0] = none :=
  ⟨by decide, (getAvgLdrResistance_floor_formula 100000 600).1 (by decide),
   (getAvgLdrResistance_floor_formula 100000 600).2.1,
   (getAvgLdrResistance_floor_formula 100000 600).2.2⟩

/-- Claim C8. `getAvgLdrResistance` divides by the number of LDR readings
with no guard: on the empty reading list it hits `0/0` (embedded `none`),
`addToJsonInfo` reports it unconditionally, and a configuration with no
LDR pins makes the poll leave the reading list empty — so the
zero-divisor branch is reachable from the public interface. -/
theorem getAvgLdrResistance_empty_reachable (R : ℚ) (pv : List Bool) :
    getAvgLdrResistance R [] = none ∧
    (addToJsonInfo R pv []).avgLdrResistance = none ∧
    (∀ (cfg : Config) (dr ar : Nat → Nat) (now : Nat) (ms : ModState) (hs : HostState),
      cfg.ldrPins = [] → (updateSensors cfg dr ar now ms hs).ms.ldrValues = []) := by
  refine ⟨?_, ?_, ?_⟩
  · simp [getAvgLdrResistance, sumLdrResistances]
  · simp [addToJsonInfo, getAvgLdrResistance, sumLdrResistances]
  · intro cfg dr ar now ms hs h
    simp [updateSensors, h]

/-- Witness for claim C8 at a concrete empty-LDR configuration. -/
theorem getAvgLdrResistance_empty_reachable_witness :
    getAvgLdrResistance 100000 [] = none ∧
    (addToJsonInfo 100000 [true, false] []).avgLdrResistance = none ∧
    (updateSensors ⟨[], [13], 500, 60000, 100000, 5⟩ (fun _ => 1) (fun _ => 0) 50
      ⟨0, false, 0, [], []⟩ ⟨0, 100⟩).ms.ldrValues = [] :=
  ⟨(getAvgLdrResistance_empty_reachable 100000 [true, false]).1,
   (getAvgLdrResistance_empty_reachable 100000 [true, false]).2.1,
   (getAvgLdrResistance_empty_reachable 100000 [true, false]).2.2 _ _ _ _ _ _ rfl⟩

/-- Claim C9. An automatic-off command remembers exactly the entry
brightness `b` (it sets `briLast := bri` before zeroing `bri`), and any
later poll whose automatic-on command fires while `briLast` still holds
`b` restores the brightness to exactly `b`. -/
theorem off_then_on_restores_brightness
    (cfg₁ : Config) (dr₁ ar₁ : Nat → Nat) (now₁ : Nat) (ms₁ : ModState) (hs₁ : HostState)
    (cfg₂ : Config) (dr₂ ar₂ : Nat → Nat) (now₂ : Nat) (ms₂ : ModState) (hs₂ : HostState)
    (b c : Nat)
    (hoff : Cmd.off b ∈ (updateSensors cfg₁ dr₁ ar₁ now₁ ms₁ hs₁).cmds)
    (hkeep : hs₂.briLast = b)
    (hon : Cmd.on c ∈ (updateSensors cfg₂ dr₂ ar₂ now₂ ms₂ hs₂).cmds) :
    b = hs₁.bri ∧
    (updateSensors cfg₁ dr₁ ar₁ now₁ ms₁ hs₁).hs.bri = 0 ∧
    (updateSensors cfg₁ dr₁ ar₁ now₁ ms₁ hs₁).hs.briLast = b ∧
    c = b ∧
    (updateSensors cfg₂ dr₂ ar₂ now₂ ms₂ hs₂).hs.bri = b := by
  by_cases h1 : hs₁.bri = 0 <;> by_cases h2 : hs₂.bri = 0 <;>
    simp_all [updateSensors, mem_ite_single]

/-- Witness for claim C9: a sensorless off at brightness 128 followed by a
triggered on with `briLast` still 128 restores brightness 128. -/
theorem off_then_on_restores_brightness_witness :
    (128 : Nat) = 128 ∧
    (updateSensors ⟨[], [], 500, 60000, 100000, 5⟩ (fun _ => 1) (fun _ => 0) 70000
        ⟨0, false, 0, [], []⟩ ⟨128, 77⟩).hs.bri = 0 ∧
    (updateSensors ⟨[], [], 500, 60000, 100000, 5⟩ (fun _ => 1) (fun _ => 0) 70000
        ⟨0, false, 0, [], []⟩ ⟨128, 77⟩).hs.briLast = 128 ∧
    (128 : Nat) = 128 ∧
    (updateSensors ⟨[32], [13], 500, 60000, 100000, 5⟩ (fun _ => 1) (fun _ => 400) 70500
        ⟨0, false, 0, [], []⟩ ⟨0, 128⟩).hs.bri = 128 :=
  off_then_on_restores_brightness ⟨[], [], 500, 60000, 100000, 5⟩ (fun _ => 1) (fun _ => 0)
    70000 ⟨0, false, 0, [], []⟩ ⟨128, 77⟩
    ⟨[32], [13], 500, 60000, 100000, 5⟩ (fun _ => 1) (fun _ => 400)
    70500 ⟨0, false, 0, [], []⟩ ⟨0, 128⟩
    128 128 (by decide) rfl (by decide)

/-- Claim C10. `readFromJsonState` is a one-way latch on the
manual-override flag: with `on` false or absent it changes nothing, with
`on` true it sets only the flag, it can never clear the flag, and the only
operation that clears the flag is the automatic-on branch of the poll
(when the flag drops from true to false across a poll, the on command was
emitted). -/
theorem readFromJsonState_one_way_latch (onField : Option Bool) (ms : ModState) :
    (onField ≠ some true → readFromJsonState onField ms = ms) ∧
    (onField = some true → readFromJsonState onField ms = { ms with lastOnManual := true }) ∧
    (ms.lastOnManual = true → (readFromJsonState onField ms).lastOnManual = true) ∧
    (∀ (cfg : Config) (dr ar : Nat → Nat) (now : Nat) (hs : HostState),
      ms.lastOnManual = true →
      (updateSensors cfg dr ar now ms hs).ms.lastOnManual = false →
      Cmd.on hs.briLast ∈ (updateSensors cfg dr ar now ms hs).cmds) := by
  refine ⟨?_, ?_, ?_, ?_⟩
  · intro h
    rcases onField with _ | b
    · rfl
    · cases b
      · rfl
      · exact absurd rfl h
  · intro h
    subst h
    rfl
  · intro h
    rcases onField with _ | b <;> [skip; cases b] <;> simp [readFromJsonState, h]
  · intro cfg dr ar now hs hman h2
    simp only [updateSensors] at h2 ⊢
    rw [hman] at h2
    split at h2
    · rename_i hF
      simp [hF, mem_ite_single]
    · simp at h2

/-- Witness for claim C10: the latch at concrete states, and a poll that
clears the flag while emitting the on command. -/
theorem readFromJsonState_one_way_latch_witness :
    readFromJsonState (some true) ⟨0, false, 0, [], []⟩ = ⟨0, true, 0, [], []⟩ ∧
    readFromJsonState none ⟨0, false, 5, [], []⟩ = ⟨0, false, 5, [], []⟩ ∧
    (readFromJsonState (some false) ⟨0, true, 0, [], []⟩).lastOnManual = true ∧
    Cmd.on 100 ∈ (updateSensors ⟨[32], [13], 500, 60000, 100000, 5⟩ (fun _ => 1)
      (fun _ => 400) 301 ⟨0, true, 0, [], []⟩ ⟨0, 100⟩).cmds :=
  ⟨(readFromJsonState_one_way_latch (some true) _).2.1 rfl,
   (readFromJsonState_one_way_latch none _).1 (by decide),
   (readFromJsonState_one_way_latch (some false) _).2.2.1 rfl,
   (readFromJsonState_one_way_latch none ⟨0, true, 0, [], []⟩).2.2.2 _ _ _ _ ⟨0, 100⟩
     rfl (by decide)⟩

end Bettlicht
